import Mathlib

set_option maxHeartbeats 1000000
set_option maxRecDepth 100000

/-!
Shallow embedding of the `nim` image/palette converter (`src/main.cc`).

Bytes and 8-bit channel values are modelled as `Nat`, with `% 256` wherever
the C++ performs a narrowing cast to `u8`.  The conversion loop's `float`
arithmetic only ever handles integers of magnitude below `2^24` (at most
3 * 255^2 = 195075 and the sentinel 256^3), all exactly representable in
`float`, so it is modelled with exact `Nat`/`Int` arithmetic.  Values of
uninitialized C++ variables that are observed after a failed stream
operation are indeterminate; they are supplied by an explicit garbage
source `g : Nat → Nat` threaded through the stream state.
-/

/-- Reference table for 3-bit channels (`kColour_3bit` in main.cc). -/
def kColour_3bit : List Nat := [0, 36, 73, 109, 146, 182, 219, 255]

/-- Reference table for 2-bit channels (`kColour_2bit` in main.cc). -/
def kColour_2bit : List Nat := [0, 85, 170, 255]

/-- The scan loop shared by `gfxReduce3` and `gfxReduce2`: the running state
is `(minIdx, minDiff)` initialised to `(0, 255)`; an exact match breaks out
immediately, and otherwise only a strictly smaller difference replaces the
running minimum. -/
def reduceGo (table : List Nat) (v : Nat) : List Nat → Nat × Nat → Nat × Nat
  | [], st => st
  | i :: is, (minIdx, minDiff) =>
    let diff := ((v : Int) - (table.getD i 0 : Int)).natAbs
    if diff = 0 then (i, minDiff)
    else if diff < minDiff then reduceGo table v is (i, diff)
    else reduceGo table v is (minIdx, minDiff)

/-- `gfxReduce3` from main.cc: index of the closest 3-bit table entry. -/
def gfxReduce3 (v : Nat) : Nat := (reduceGo kColour_3bit v (List.range 8) (0, 255)).1

/-- `gfxReduce2` from main.cc: index of the closest 2-bit table entry. -/
def gfxReduce2 (v : Nat) : Nat := (reduceGo kColour_2bit v (List.range 4) (0, 255)).1

/-- `struct Colour` from main.cc, three `u8` channel fields. -/
structure Colour where
  m_red : Nat
  m_green : Nat
  m_blue : Nat
  deriving DecidableEq, Inhabited

/-- `class Palette` data members: the colour vector and the transparency
index byte (`m_transparentColour`, default 0xe3). -/
structure Palette where
  m_colours : List Colour
  m_transparentColour : Nat
  deriving DecidableEq

def Palette.numColours (p : Palette) : Nat := p.m_colours.length

def Palette.getTransColour (p : Palette) : Nat := p.m_transparentColour

/-- The default `Palette()` constructor: the fixed RRRGGGBB ramp over all
256 indices, transparency index 0xe3. -/
def defaultPalette : Palette :=
  ⟨(List.range 256).map (fun i =>
      ⟨(i &&& 0xe0) >>> 5, (i &&& 0x1c) >>> 2,
        ((i &&& 0x03) <<< 1) + (((i &&& 0x02) >>> 1) ||| (i &&& 0x01))⟩),
    0xe3⟩

/-- The packed first byte `p1` written for one palette entry by
`Palette::write` (the `(u8)` result of `(red<<5) | (green<<2) | (blue>>1)`). -/
def nipP1 (c : Colour) : Nat :=
  ((c.m_red <<< 5) ||| (c.m_green <<< 2) ||| (c.m_blue >>> 1)) % 256

/-- The second-plane byte `p2 = blue & 1` written in extended mode. -/
def nipP2 (c : Colour) : Nat := c.m_blue &&& 1

/-- Byte(s) emitted for one entry by `Palette::write`. -/
def nipEntryBytes (extended : Bool) (c : Colour) : List Nat :=
  if extended then [nipP1 c, nipP2 c] else [nipP1 c]

/-- `Palette::write`: the byte stream written to the `.nip` file — the 6-byte
header ("NIP0", count byte `size & 0xff`, flags), the entry bytes, and the
trailing transparency byte. -/
def Palette.write (p : Palette) (extended : Bool) : List Nat :=
  [0x4e, 0x49, 0x50, 0x30, p.m_colours.length % 256, if extended then 1 else 0]
  ++ (p.m_colours.map (nipEntryBytes extended)).flatten
  ++ [p.m_transparentColour]

/-- Input-stream state: the raw bytes, the read position, the `eofbit` and
`failbit` flags, and the garbage source for indeterminate values (`g`
applied at the running counter `gc`). -/
structure IStream where
  data : List Nat
  pos : Nat
  eofbit : Bool
  failbit : Bool
  g : Nat → Nat
  gc : Nat

def IStream.good (s : IStream) : Bool := !s.eofbit && !s.failbit

/-- `f.read((char*)&x, 1)` into an uninitialized local: on failure the local
stays indeterminate (garbage). -/
def readByteFresh (s : IStream) : Nat × IStream :=
  if s.failbit then (s.g s.gc, { s with gc := s.gc + 1 })
  else
    match s.data[s.pos]? with
    | some b => (b, { s with pos := s.pos + 1 })
    | none => (s.g s.gc, { s with eofbit := true, failbit := true, gc := s.gc + 1 })

/-- `f.read((char*)&x, 1)` into an already-initialized variable: on failure
the variable keeps its old value. -/
def readByteInto (old : Nat) (s : IStream) : Nat × IStream :=
  if s.failbit then (old, s)
  else
    match s.data[s.pos]? with
    | some b => (b, { s with pos := s.pos + 1 })
    | none => (old, { s with eofbit := true, failbit := true })

/-- `f.read((char*)&tag, 4)`: little-endian u32 if four bytes are available;
a short read leaves the partially-filled `u32` indeterminate. -/
def read4 (s : IStream) : Nat × IStream :=
  if s.failbit then (s.g s.gc, { s with gc := s.gc + 1 })
  else if s.pos + 4 ≤ s.data.length then
    (s.data.getD s.pos 0 + s.data.getD (s.pos + 1) 0 * 256
      + s.data.getD (s.pos + 2) 0 * 65536 + s.data.getD (s.pos + 3) 0 * 16777216,
     { s with pos := s.pos + 4 })
  else (s.g s.gc, { s with pos := s.data.length, eofbit := true, failbit := true, gc := s.gc + 1 })

/-- `f.seekg(0, ios::beg)`: clears `eofbit` and rewinds; a no-op when
`failbit` is set (the internal sentry fails). -/
def seekg0 (s : IStream) : IStream :=
  if s.failbit then s else { s with pos := 0, eofbit := false }

def isSpaceB (c : Nat) : Bool := c = 32 || c = 9 || c = 10 || c = 11 || c = 12 || c = 13

def isDigitB (c : Nat) : Bool := 48 ≤ c && c ≤ 57

/-- Whitespace skipping performed by the formatted-extraction sentry;
running off the end sets `eofbit`.  Fuelled (fuel bounds remaining data). -/
def skipWsGo (s : IStream) : Nat → IStream
  | 0 => s
  | fuel + 1 =>
    match s.data[s.pos]? with
    | none => { s with eofbit := true }
    | some c => if isSpaceB c then skipWsGo { s with pos := s.pos + 1 } fuel else s

def skipWs (s : IStream) : IStream := skipWsGo s (s.data.length + 1 - s.pos)

/-- Characters of one whitespace-delimited token. -/
def takeTokGo (acc : List Nat) (s : IStream) : Nat → List Nat × IStream
  | 0 => (acc, s)
  | fuel + 1 =>
    match s.data[s.pos]? with
    | none => (acc, { s with eofbit := true })
    | some c =>
      if isSpaceB c then (acc, s)
      else takeTokGo (acc ++ [c]) { s with pos := s.pos + 1 } fuel

/-- `f >> line` for a `std::string`: skip whitespace, read a token; if no
characters are extracted, `failbit` is set and the string keeps its old
value. -/
def readToken (old : List Nat) (s : IStream) : List Nat × IStream :=
  if s.good = false then (old, { s with failbit := true })
  else
    let s1 := skipWs s
    if s1.eofbit then (old, { s1 with failbit := true })
    else
      let (tok, s2) := takeTokGo [] s1 (s1.data.length + 1 - s1.pos)
      if tok = [] then (old, { s2 with failbit := true }) else (tok, s2)

/-- Digit run for `f >> int`; returns `none` if no digit was consumed. -/
def digitsGo (s : IStream) (acc : Nat) (gotOne : Bool) : Nat → Option Nat × IStream
  | 0 => ((if gotOne then some acc else none), s)
  | fuel + 1 =>
    match s.data[s.pos]? with
    | none => ((if gotOne then some acc else none), { s with eofbit := true })
    | some c =>
      if isDigitB c then
        digitsGo { s with pos := s.pos + 1 } (acc * 10 + (c - 48)) true fuel
      else ((if gotOne then some acc else none), s)

/-- `f >> x` for an uninitialized `int x` (C++11 semantics): if the sentry
fails (bad state, or end of data reached while skipping whitespace) the
variable keeps its indeterminate value; if no digits can be extracted the
value is set to 0 and `failbit` raised; otherwise the decimal value is
stored, with `eofbit` raised when the run was ended by end of data. -/
def readIntFresh (s : IStream) : Int × IStream :=
  if s.good = false then ((s.g s.gc : Int), { s with failbit := true, gc := s.gc + 1 })
  else
    let s1 := skipWs s
    if s1.eofbit then ((s1.g s1.gc : Int), { s1 with failbit := true, gc := s1.gc + 1 })
    else
      let (neg, s2) :=
        match s1.data[s1.pos]? with
        | some 45 => (true, { s1 with pos := s1.pos + 1 })
        | _ => (false, s1)
      match digitsGo s2 0 false (s2.data.length + 1 - s2.pos) with
      | (some n, s3) => ((if neg then -(n : Int) else (n : Int)), s3)
      | (none, s3) => (0, { s3 with failbit := true })

/-- `std::stoi` modelled for the decimal count tokens the parser feeds it
(a non-numeric token makes the C++ `stoi` throw, aborting the process;
such inputs are outside the behaviour modelled here). -/
def stoiM (tok : List Nat) : Nat := tok.foldl (fun a c => a * 10 + (c - 48)) 0

/-- The `u8(...)` narrowing conversion applied to an `int`. -/
def toU8 (x : Int) : Nat := (x % 256).toNat

/-- Failure kinds of the palette parser and image converter, one per
distinct `cerr`-and-abort path in main.cc, under the names the design
documentation gives them.  (`TruncatedInput` and `UnrecognizedFormat` are
listed by the documentation; the parser code itself has no dedicated
truncation check, which is exactly what the theorems below examine.) -/
inductive ParseError where
  | TruncatedInput
  | UnrecognizedFormat
  | InvalidColorValue
  | ColorCountMismatch
  deriving DecidableEq

/-- Decode of one palette entry inside the `NIP0` branch of
`Palette::Palette(ifstream&)`: read `p1` (and `p2` when bit 0 of the flags
is set, else reconstruct it as `((p1 & 2) >> 1) | (p1 & 1)`), then unpack. -/
def readEntry (flags : Nat) (s : IStream) : Colour × IStream :=
  let (p1, s1) := readByteFresh s
  let (p2, s2) :=
    if flags &&& 1 = 1 then readByteFresh s1
    else (((p1 &&& 2) >>> 1) ||| (p1 &&& 1), s1)
  (⟨(p1 &&& 0xe0) >>> 5, (p1 &&& 0x1c) >>> 2, ((p1 &&& 0x03) <<< 1) ||| (p2 &&& 1)⟩, s2)

/-- The entry-reading loop of the `NIP0` branch. -/
def readEntries (flags : Nat) : Nat → IStream → List Colour × IStream
  | 0, s => ([], s)
  | n + 1, s =>
    let (c, s1) := readEntry flags s
    let (cs, s2) := readEntries flags n s1
    (c :: cs, s2)

/-- The count check after the JASC triple loop: mismatch between the
declared count and the number of parsed triples aborts the parse. -/
def jascCheck (num : Nat) (cols : List Colour) : Except ParseError (List Colour) :=
  if num ≠ cols.length then Except.error ParseError.ColorCountMismatch else Except.ok cols

/-- The `while (!f.eof())` triple-reading loop of the JASC branch.  Each
iteration extracts `red`, `green`, `blue` (chained `>>`), range-checks
them, quantizes through `gfxReduce3` and appends, then `++i == num`
breaks out.  The fuel passed by the caller exceeds the length of any
terminating execution (an execution in which `failbit` is raised without
`eofbit` loops forever in the C++, and is outside the modelled claims). -/
def jascLoop (num : Nat) : Nat → Nat → List Colour → IStream →
    Except ParseError (List Colour) × IStream
  | 0, _, cols, s => (jascCheck num cols, s)
  | fuel + 1, i, cols, s =>
    if s.eofbit then (jascCheck num cols, s)
    else
      let (red, s1) := readIntFresh s
      let (green, s2) := readIntFresh s1
      let (blue, s3) := readIntFresh s2
      if red < 0 || 255 < red || green < 0 || 255 < green || blue < 0 || 255 < blue then
        (Except.error ParseError.InvalidColorValue, s3)
      else
        let cols2 := cols ++
          [⟨gfxReduce3 (toU8 red), gfxReduce3 (toU8 green), gfxReduce3 (toU8 blue)⟩]
        if i + 1 = num then (jascCheck num cols2, s3)
        else jascLoop num fuel (i + 1) cols2 s3

/-- The `tag == '0PIN'` branch of `Palette::Palette(ifstream&)`: read the
count and flag bytes, the entries, and the trailing transparency byte. -/
def parseNip (s1 : IStream) : Except ParseError Palette :=
  let (numColoursB, s2) := readByteFresh s1
  let (flags, s3) := readByteFresh s2
  let actualNumColours := if numColoursB ≠ 0 then numColoursB else 256
  let (cols, s4) := readEntries flags actualNumColours s3
  let (transByte, _) := readByteInto 0xe3 s4
  Except.ok ⟨cols, transByte⟩

/-- The non-`NIP0` branch of `Palette::Palette(ifstream&)`: rewind and
attempt the JASC-PAL text format. -/
def parseText (s1 : IStream) : Except ParseError Palette :=
  let s2 := seekg0 s1
  let (line1, s3) := readToken [] s2
  if line1 = [74, 65, 83, 67, 45, 80, 65, 76] then
    let (line2, s4) := readToken line1 s3
    if line2 = [48, 49, 48, 48] then
      let (line3, s5) := readToken line2 s4
      let num := stoiM line3
      match jascLoop num (num + s5.data.length + 1) 0 [] s5 with
      | (Except.ok cols, _) => Except.ok ⟨cols, 0xe3⟩
      | (Except.error e, _) => Except.error e
    else Except.ok ⟨[], 0xe3⟩
  else Except.ok ⟨[], 0xe3⟩

/-- `Palette::Palette(ifstream&)`: the file-parsing constructor.  The `ok`
payload is the palette the constructor leaves behind (the fall-through
cases leave the colour vector empty with the default transparency byte);
the `error` cases are the constructor's `cerr`-and-return paths. -/
def Palette.parse (data : List Nat) (g : Nat → Nat) : Except ParseError Palette :=
  let s0 : IStream := ⟨data, 0, false, false, g, 0⟩
  let (tag, s1) := read4 s0
  if tag = 0x3050494e then parseNip s1 else parseText s1

/-- Failure kinds of `process_image` (before any pixel is processed). -/
inductive ConvertError where
  | PaletteTooLarge
  | OddWidthFor4Bit
  deriving DecidableEq

/-- Squared distance computed by the conversion loop between palette entry
`c` (channels expanded through `kColour_3bit`) and the raw source channels
`r,g,b`.  The C++ computes it in `float`; every intermediate is an integer
of magnitude at most 3 * 255^2 < 2^24, hence exact. -/
def colourDist (c : Colour) (r g b : Nat) : Nat :=
  ((kColour_3bit.getD c.m_red 0 : Int) - (r : Int)).natAbs ^ 2 +
  ((kColour_3bit.getD c.m_green 0 : Int) - (g : Int)).natAbs ^ 2 +
  ((kColour_3bit.getD c.m_blue 0 : Int) - (b : Int)).natAbs ^ 2

/-- Distance from the source channels to the palette entry at index `j`. -/
def distAt (cols : List Colour) (r g b j : Nat) : Nat :=
  colourDist (cols.getD j default) r g b

/-- The nearest-entry search loop of `process_image`: state `(d, x)` starts
at the sentinel distance 256^3 with `x` indeterminate; the transparency
index is skipped; only a strictly smaller distance replaces the best. -/
def nearestGo (cols : List Colour) (t r g b : Nat) : List Nat → Nat × Nat → Nat × Nat
  | [], st => st
  | i :: is, (d, x) =>
    if i = t then nearestGo cols t r g b is (d, x)
    else
      let dist := distAt cols r g b i
      if dist < d then nearestGo cols t r g b is (dist, i)
      else nearestGo cols t r g b is (d, x)

/-- Result of the nearest-entry search (`x0` models the indeterminate
initial value of the local `u8 x`). -/
def nearestIndex (cols : List Colour) (t r g b x0 : Nat) : Nat :=
  (nearestGo cols t r g b (List.range cols.length) (16777216, x0)).2

/-- Per-pixel classification of `process_image`: a pixel whose alpha byte
is not 255 gets the transparency index outright; an opaque pixel gets the
nearest-entry search over the raw `r,g,b` extracted from the `u32` word. -/
def classifyPixel (p : Palette) (v x0 : Nat) : Nat :=
  let a := (v &&& 0xff000000) >>> 24
  let b := (v &&& 0x00ff0000) >>> 16
  let g := (v &&& 0x0000ff00) >>> 8
  let r := v &&& 0x000000ff
  if a ≠ 255 then p.getTransColour
  else nearestIndex p.m_colours p.getTransColour r g b x0

/-- One row of 4-bit packing: `u8 idx` starts at 0 each row; an even
column stores `(u8)(x << 4)`, an odd column adds its index into the byte
(`u8` wraparound) and appends it. -/
def row4 (p : Palette) (img : Nat → Nat) (x0 base : Nat) : List Nat → Nat → List Nat
  | [], _ => []
  | col :: cols, idx =>
    let x := classifyPixel p (img (base + col)) x0
    if col % 2 = 0 then row4 p img x0 base cols ((x <<< 4) % 256)
    else
      let idx2 := (idx + x) % 256
      idx2 :: row4 p img x0 base cols idx2

/-- One row of 8-bit output: one index byte per pixel. -/
def row8 (p : Palette) (img : Nat → Nat) (x0 base w : Nat) : List Nat :=
  (List.range w).map (fun col => classifyPixel p (img (base + col)) x0)

/-- The pixel section of the `.nim` output. -/
def nimBody (p : Palette) (bit4 : Bool) (w h : Nat) (img : Nat → Nat) (x0 : Nat) : List Nat :=
  ((List.range h).map (fun row =>
    if bit4 then row4 p img x0 (row * w) (List.range w) 0
    else row8 p img x0 (row * w) w)).flatten

/-- The `.nim` header: magic "NIM0" and the width/height stored through the
`u16` struct fields (`hdr.width = w` narrows to 16 bits), little-endian. -/
def nimHeader (w h : Nat) : List Nat :=
  [0x4e, 0x49, 0x4d, 0x30,
   (w % 65536) % 256, (w % 65536) / 256,
   (h % 65536) % 256, (h % 65536) / 256]

/-- `process_image` (its core, after the image decode): the 4-bit-mode
precondition checks, then the conversion loop, then the written `.nim`
bytes.  `img i` is the `u32` RGBA word of pixel `i` in row-major order;
`x0` models the indeterminate initial value of the local `u8 x`. -/
def process_image (p : Palette) (bit4 : Bool) (w h : Nat) (img : Nat → Nat) (x0 : Nat) :
    Except ConvertError (List Nat) :=
  if bit4 ∧ 16 < p.numColours then Except.error ConvertError.PaletteTooLarge
  else if bit4 ∧ w % 2 = 1 then Except.error ConvertError.OddWidthFor4Bit
  else Except.ok (nimHeader w h ++ nimBody p bit4 w h img x0)

/-- Colour produced when the parser decodes the byte(s) that
`Palette::write` emitted for entry `c`. -/
def nipDecode (extended : Bool) (c : Colour) : Colour :=
  let p1 := nipP1 c
  let p2 := if extended then nipP2 c else ((p1 &&& 2) >>> 1) ||| (p1 &&& 1)
  ⟨(p1 &&& 0xe0) >>> 5, (p1 &&& 0x1c) >>> 2, ((p1 &&& 0x03) <<< 1) ||| (p2 &&& 1)⟩

instance {ε α : Type} [DecidableEq ε] [DecidableEq α] : DecidableEq (Except ε α)
  | Except.error e, Except.error f =>
    if h : e = f then Decidable.isTrue (congrArg Except.error h)
    else Decidable.isFalse (fun hc => h (by cases hc; rfl))
  | Except.error _, Except.ok _ => Decidable.isFalse (fun hc => Except.noConfusion hc)
  | Except.ok _, Except.error _ => Decidable.isFalse (fun hc => Except.noConfusion hc)
  | Except.ok x, Except.ok y =>
    if h : x = y then Decidable.isTrue (congrArg Except.ok h)
    else Decidable.isFalse (fun hc => h (by cases hc; rfl))

/-- Claim C3: for every 8-bit value `v`, `gfxReduce3 v` is an index below 8
that minimizes the absolute difference to the 3-bit table entries, and any
index achieving the same difference is at least it (ties resolve to the
lowest index); likewise `gfxReduce2 v` over the 2-bit table.  Both are
total functions, witnessed by the unconditional quantification over all
256 byte values. -/
theorem gfxReduce_minimizes :
    ∀ v : Fin 256,
      (gfxReduce3 v.val < 8 ∧
        (∀ j : Fin 8,
          ((v.val : Int) - kColour_3bit.getD (gfxReduce3 v.val) 0).natAbs ≤
            ((v.val : Int) - kColour_3bit.getD j.val 0).natAbs) ∧
        (∀ j : Fin 8,
          ((v.val : Int) - kColour_3bit.getD j.val 0).natAbs =
              ((v.val : Int) - kColour_3bit.getD (gfxReduce3 v.val) 0).natAbs →
            gfxReduce3 v.val ≤ j.val)) ∧
      (gfxReduce2 v.val < 4 ∧
        (∀ j : Fin 4,
          ((v.val : Int) - kColour_2bit.getD (gfxReduce2 v.val) 0).natAbs ≤
            ((v.val : Int) - kColour_2bit.getD j.val 0).natAbs) ∧
        (∀ j : Fin 4,
          ((v.val : Int) - kColour_2bit.getD j.val 0).natAbs =
              ((v.val : Int) - kColour_2bit.getD (gfxReduce2 v.val) 0).natAbs →
            gfxReduce2 v.val ≤ j.val)) := by decide

/-- Claim C2: a pixel whose alpha byte is anything other than 255 is
assigned the palette's transparency index unconditionally — for every
palette (so no nearest-entry search over the entries is consulted) and for
every r,g,b content of the pixel word; the written 8-bit output byte is
that index. -/
theorem nonOpaque_pixel_transparent (v x0 : Nat)
    (h : (v &&& 0xff000000) >>> 24 ≠ 255) :
    (∀ p : Palette, classifyPixel p v x0 = p.getTransColour) ∧
    (∀ p : Palette, process_image p false 1 1 (fun _ => v) x0 =
      Except.ok (nimHeader 1 1 ++ [p.getTransColour])) := by
  have hc : ∀ p : Palette, classifyPixel p v x0 = p.getTransColour := by
    intro p
    simp only [classifyPixel]
    rw [if_pos h]
  refine ⟨hc, fun p => ?_⟩
  simp [process_image, nimBody, row8, List.range_succ, hc]

/-- Witness for C2 at the all-zero pixel word (alpha byte 0). -/
theorem nonOpaque_pixel_transparent_witness :
    ((0 &&& 0xff000000) >>> 24 ≠ 255) ∧
    classifyPixel defaultPalette 0 0 = defaultPalette.getTransColour :=
  ⟨by decide, (nonOpaque_pixel_transparent 0 0 (by decide)).1 defaultPalette⟩

/-- Claim C8: in 4-bit mode a palette with more than 16 entries fails with
`PaletteTooLarge`, and (when the palette-size check passes, which runs
first) an odd width fails with `OddWidthFor4Bit` — in both cases for every
image, i.e. before any pixel is classified, and with no output bytes
produced. -/
theorem bit4_preconditions (p : Palette) (w h : Nat) (img : Nat → Nat) (x0 : Nat) :
    (16 < p.numColours →
      process_image p true w h img x0 = Except.error ConvertError.PaletteTooLarge) ∧
    (p.numColours ≤ 16 → w % 2 = 1 →
      process_image p true w h img x0 = Except.error ConvertError.OddWidthFor4Bit) := by
  constructor
  · intro h1
    simp [process_image, h1]
  · intro h1 h2
    simp [process_image, h2, Nat.not_lt.mpr h1]

/-- Witness for C8: a 17-entry palette fails with `PaletteTooLarge`; a
16-entry palette with width 5 fails with `OddWidthFor4Bit`. -/
theorem bit4_preconditions_witness :
    (16 < (Palette.mk (List.replicate 17 default) 0xe3).numColours ∧
      process_image (Palette.mk (List.replicate 17 default) 0xe3) true 4 1 (fun _ => 0) 0 =
        Except.error ConvertError.PaletteTooLarge) ∧
    ((Palette.mk (List.replicate 16 default) 0xe3).numColours ≤ 16 ∧ 5 % 2 = 1 ∧
      process_image (Palette.mk (List.replicate 16 default) 0xe3) true 5 1 (fun _ => 0) 0 =
        Except.error ConvertError.OddWidthFor4Bit) :=
  ⟨⟨by decide, (bit4_preconditions _ 4 1 (fun _ => 0) 0).1 (by decide)⟩,
   ⟨by decide, by decide, (bit4_preconditions _ 5 1 (fun _ => 0) 0).2 (by decide) (by decide)⟩⟩

/-- Claim C10: the 4-bit packing applies no range check — an even column
stores the `u8` result of `x << 4` (whose value is `x % 16 * 16`, i.e. the
high nibble holds the index mod 16), the odd column's index is added into
the same byte in 8-bit arithmetic, and a transparency index of 16 or more
(the default 0xe3 here) is silently wrapped in the written pixel data
(0xe3 even column and 0xe3 odd column pack to byte 0x13) rather than
rejected. -/
theorem bit4_packing_wraps (p : Palette) (img : Nat → Nat) (x0 : Nat)
    (hn : p.numColours ≤ 16) :
    process_image p true 2 1 img x0 =
      Except.ok (nimHeader 2 1 ++
        [((classifyPixel p (img 0) x0 <<< 4) % 256 + classifyPixel p (img 1) x0) % 256]) ∧
    (∀ e : Nat, (e <<< 4) % 256 = e % 16 * 16) ∧
    process_image (Palette.mk (List.replicate 16 default) 0xe3) true 2 1 (fun _ => 0) 0 =
      Except.ok [0x4e, 0x49, 0x4d, 0x30, 2, 0, 1, 0, 0x13] := by
  refine ⟨?_, ?_, by decide⟩
  · have h2 : List.range 2 = [0, 1] := rfl
    simp [process_image, Nat.not_lt.mpr hn, nimBody, h2, row4, List.range_succ,
      Nat.mod_add_mod]
  · intro e
    rw [Nat.shiftLeft_eq]
    omega

/-- Witness for C10 at a 16-entry palette and an all-transparent 2-pixel
image. -/
theorem bit4_packing_wraps_witness :
    (Palette.mk (List.replicate 16 default) 0xe3).numColours ≤ 16 ∧
    process_image (Palette.mk (List.replicate 16 default) 0xe3) true 2 1 (fun _ => 0) 0 =
      Except.ok (nimHeader 2 1 ++
        [((classifyPixel (Palette.mk (List.replicate 16 default) 0xe3) 0 0 <<< 4) % 256 +
          classifyPixel (Palette.mk (List.replicate 16 default) 0xe3) 0 0) % 256]) :=
  ⟨by decide, (bit4_packing_wraps _ (fun _ => 0) 0 (by decide)).1⟩

/-- The text "JASC-PAL\n0100\n2\n1 2 3\n4 5 6\n7 8 9\n": the declared count
(2) disagrees with the number of triples present (3). -/
def jascSurplus : List Nat :=
  [74, 65, 83, 67, 45, 80, 65, 76, 10, 48, 49, 48, 48, 10, 50, 10,
   49, 32, 50, 32, 51, 10, 52, 32, 53, 32, 54, 10, 55, 32, 56, 32, 57, 10]

/-- The text "JASC-PAL\n0100\n3\n1 2 3\n4 5 6" (ends right after the last
digit): the declared count (3) disagrees with the triples present (2). -/
def jascDeficit : List Nat :=
  [74, 65, 83, 67, 45, 80, 65, 76, 10, 48, 49, 48, 48, 10, 51, 10,
   49, 32, 50, 32, 51, 10, 52, 32, 53, 32, 54]

/-- Counterexample to claim C6: a JASC-PAL stream declaring 2 colours but
containing 3 triples does NOT fail with `ColorCountMismatch` — the loop
stops after the declared count, the extra triple is silently ignored, and
a 2-entry palette is returned. -/
theorem jasc_surplus_no_mismatch :
    Palette.parse jascSurplus (fun _ => 0) =
      Except.ok ⟨[⟨0, 0, 0⟩, ⟨0, 0, 0⟩], 0xe3⟩ := by rfl

/-- Claim C6 amended: when the stream provides fewer triples than declared
and ends at the last triple, the parse fails with `ColorCountMismatch` and
no truncated or padded palette is returned; when the stream provides more
triples than declared, the first `count` triples are parsed and the
remainder is ignored without any error. -/
theorem jasc_count_mismatch_behaviour :
    Palette.parse jascDeficit (fun _ => 0) = Except.error ParseError.ColorCountMismatch ∧
    Palette.parse jascSurplus (fun _ => 0) =
      Except.ok ⟨[⟨0, 0, 0⟩, ⟨0, 0, 0⟩], 0xe3⟩ := ⟨rfl, rfl⟩

/-- A `NIP0` stream declaring 2 entries but truncated after the first
entry byte (no second entry, no trailing transparency byte). -/
def truncatedNip : List Nat := [0x4e, 0x49, 0x50, 0x30, 2, 0, 0xaa]

/-- Counterexample to claim C7: parsing a truncated `NIP0` stream does not
fail at all — with garbage source 0 it yields a full 2-entry palette (the
second entry decoded from the indeterminate byte) and the default
transparency index 0xe3. -/
theorem truncated_nip_counterexample :
    Palette.parse truncatedNip (fun _ => 0) =
      Except.ok ⟨[⟨5, 2, 5⟩, ⟨0, 0, 0⟩], 0xe3⟩ := by rfl

/-- Claim C7 amended: parsing a byte stream that begins with "NIP0" but is
truncated before the declared entries and the trailing transparency byte
does not fail — for every possible content `gb` of the indeterminate byte
(the failed read leaves the `u8` local indeterminate, so all 256 values
are covered) it yields a palette with the declared entry count of 2, the
second entry decoded from the indeterminate byte, and the default
transparency index 0xe3; no `TruncatedInput` failure path exists in the
parser. -/
theorem truncated_nip_parses :
    ∀ gb : Fin 256,
      Palette.parse truncatedNip (fun _ => gb.val) =
        Except.ok ⟨[⟨5, 2, 5⟩,
          ⟨(gb.val &&& 0xe0) >>> 5, (gb.val &&& 0x1c) >>> 2,
           ((gb.val &&& 0x03) <<< 1) ||| ((((gb.val &&& 2) >>> 1) ||| (gb.val &&& 1)) &&& 1)⟩],
          0xe3⟩ := by decide

/-- An all-transparent pixel always classifies to the transparency index. -/
theorem classify_zero (p : Palette) (x0 : Nat) :
    classifyPixel p 0 x0 = p.getTransColour := by
  simp [classifyPixel]

/-- A row of all-transparent pixels produces a row of transparency bytes. -/
theorem row8_zero (p : Palette) (x0 base w : Nat) :
    row8 p (fun _ => 0) x0 base w = List.replicate w p.getTransColour := by
  simp [row8, classify_zero, List.map_const']

/-- In 8-bit mode a 1-row image's body is one row starting at pixel 0. -/
theorem nimBody8_one_row (p : Palette) (img : Nat → Nat) (x0 w : Nat) :
    nimBody p false w 1 img x0 = row8 p img x0 0 w := by
  have h1 : List.range 1 = [0] := rfl
  simp [nimBody, h1]

/-- Counterexample to claim C9: a 65536-pixel-wide image is not rejected —
conversion succeeds and the `u16` width field of the written header holds
0 (65536 truncated to 16 bits), silently. -/
theorem nim_dimension_truncation_counterexample :
    process_image defaultPalette false 65536 1 (fun _ => 0) 0 =
      Except.ok ([0x4e, 0x49, 0x4d, 0x30, 0, 0, 1, 0] ++ List.replicate 65536 0xe3) := by
  have hb : nimBody defaultPalette false 65536 1 (fun _ => 0) 0 =
      List.replicate 65536 (0xe3 : Nat) := by
    rw [nimBody8_one_row, row8_zero]
    rfl
  have hh : nimHeader 65536 1 = [0x4e, 0x49, 0x4d, 0x30, 0, 0, 1, 0] := by
    norm_num [nimHeader]
  have hp : process_image defaultPalette false 65536 1 (fun _ => 0) 0 =
      Except.ok (nimHeader 65536 1 ++ nimBody defaultPalette false 65536 1 (fun _ => 0) 0) := by
    simp [process_image]
  rw [hp, hb, hh]

/-- Claim C9 amended: out-of-range dimensions are not treated as an error;
conversion succeeds for every width and height, and the header's `u16`
width/height fields hold the dimensions reduced modulo 65536 (little
endian), i.e. the values are silently truncated. -/
theorem nim_dimensions_stored_mod_65536 (p : Palette) (w h x0 : Nat) (img : Nat → Nat) :
    ∃ out, process_image p false w h img x0 = Except.ok out ∧
      out.take 8 = [0x4e, 0x49, 0x4d, 0x30,
        w % 256, w / 256 % 256, h % 256, h / 256 % 256] := by
  have hp : process_image p false w h img x0 =
      Except.ok (nimHeader w h ++ nimBody p false w h img x0) := by
    simp [process_image]
  refine ⟨_, hp, ?_⟩
  rw [show (8 : Nat) = (nimHeader w h).length from rfl, List.take_left]
  have e1 : w % 65536 % 256 = w % 256 := by omega
  have e2 : w % 65536 / 256 = w / 256 % 256 := by omega
  have e3 : h % 65536 % 256 = h % 256 := by omega
  have e4 : h % 65536 / 256 = h / 256 % 256 := by omega
  simp only [nimHeader, e1, e2, e3, e4]

theorem drop_cons_get? : ∀ (data : List Nat) (pos a : Nat) (l : List Nat),
    data.drop pos = a :: l → data[pos]? = some a ∧ data.drop (pos + 1) = l := by
  intro data
  induction data with
  | nil => intro pos a l h; simp at h
  | cons x xs ih =>
    intro pos a l h
    cases pos with
    | zero =>
      rw [List.drop_zero] at h
      injection h with h1 h2
      subst h1; subst h2
      exact ⟨by simp, rfl⟩
    | succ n =>
      rw [List.drop_succ_cons] at h
      have hh := ih n a l h
      simpa [List.drop_succ_cons] using hh

theorem drop_append_shift : ∀ (l1 : List Nat) (data l2 : List Nat) (pos : Nat),
    data.drop pos = l1 ++ l2 → data.drop (pos + l1.length) = l2 := by
  intro l1
  induction l1 with
  | nil => intro data l2 pos h; simpa using h
  | cons a l1 ih =>
    intro data l2 pos h
    rw [List.cons_append] at h
    obtain ⟨_, h2⟩ := drop_cons_get? data pos a (l1 ++ l2) h
    have hh := ih data l2 (pos + 1) h2
    have he : pos + (a :: l1).length = pos + 1 + l1.length := by
      simp [List.length_cons]
      omega
    rw [he]
    exact hh

theorem readByteFresh_at (data : List Nat) (pos gc b : Nat) (g : Nat → Nat)
    (h : data[pos]? = some b) :
    readByteFresh ⟨data, pos, false, false, g, gc⟩ =
      (b, ⟨data, pos + 1, false, false, g, gc⟩) := by
  simp [readByteFresh, h]

theorem readByteInto_at (data : List Nat) (pos gc b old : Nat) (g : Nat → Nat)
    (h : data[pos]? = some b) :
    readByteInto old ⟨data, pos, false, false, g, gc⟩ =
      (b, ⟨data, pos + 1, false, false, g, gc⟩) := by
  simp [readByteInto, h]

theorem readEntry_exact (ext : Bool) (c : Colour) (data rest : List Nat) (pos gc : Nat)
    (g : Nat → Nat) (h : data.drop pos = nipEntryBytes ext c ++ rest) :
    readEntry (if ext then 1 else 0) ⟨data, pos, false, false, g, gc⟩ =
      (nipDecode ext c,
       ⟨data, pos + (nipEntryBytes ext c).length, false, false, g, gc⟩) := by
  cases ext with
  | false =>
    simp only [nipEntryBytes, Bool.false_eq_true, if_false, List.singleton_append] at h
    obtain ⟨h1, _⟩ := drop_cons_get? data pos (nipP1 c) rest h
    simp [readEntry, readByteFresh_at data pos gc (nipP1 c) g h1, nipDecode, nipEntryBytes]
  | true =>
    simp only [nipEntryBytes, if_true, List.cons_append, List.singleton_append] at h
    obtain ⟨h1, h2⟩ := drop_cons_get? data pos (nipP1 c) (nipP2 c :: rest) h
    obtain ⟨h3, _⟩ := drop_cons_get? data (pos + 1) (nipP2 c) rest h2
    have ha : (1 &&& 1 : Nat) = 1 := rfl
    simp [readEntry, readByteFresh_at data pos gc (nipP1 c) g h1,
      readByteFresh_at data (pos + 1) gc (nipP2 c) g h3, nipDecode, nipEntryBytes, ha,
      Nat.add_assoc]

theorem readEntries_exact (ext : Bool) (g : Nat → Nat) :
    ∀ (cs : List Colour) (data rest : List Nat) (pos gc : Nat),
      data.drop pos = (cs.map (nipEntryBytes ext)).flatten ++ rest →
      readEntries (if ext then 1 else 0) cs.length ⟨data, pos, false, false, g, gc⟩ =
        (cs.map (nipDecode ext),
         ⟨data, pos + ((cs.map (nipEntryBytes ext)).flatten).length, false, false, g, gc⟩) := by
  intro cs
  induction cs with
  | nil =>
    intro data rest pos gc _
    simp [readEntries]
  | cons c cs ih =>
    intro data rest pos gc h
    rw [List.map_cons, List.flatten_cons, List.append_assoc] at h
    have he := readEntry_exact ext c data ((cs.map (nipEntryBytes ext)).flatten ++ rest) pos gc g h
    have hd : data.drop (pos + (nipEntryBytes ext c).length) =
        (cs.map (nipEntryBytes ext)).flatten ++ rest :=
      drop_append_shift (nipEntryBytes ext c) data _ pos h
    have hr := ih data rest (pos + (nipEntryBytes ext c).length) gc hd
    simp only [List.length_cons, readEntries, he, hr, List.map_cons, List.flatten_cons,
      List.length_append, Nat.add_assoc]

theorem read4_cons (b0 b1 b2 b3 : Nat) (rest : List Nat) (g : Nat → Nat) :
    read4 ⟨b0 :: b1 :: b2 :: b3 :: rest, 0, false, false, g, 0⟩ =
      (b0 + b1 * 256 + b2 * 65536 + b3 * 16777216,
       ⟨b0 :: b1 :: b2 :: b3 :: rest, 4, false, false, g, 0⟩) := by
  have hlen : 0 + 4 ≤ (b0 :: b1 :: b2 :: b3 :: rest).length := by
    simp [List.length_cons]
  simp [read4, hlen, List.getD]

theorem parse_nip (g : Nat → Nat) (ext : Bool) (cs : List Colour) (cnt t : Nat)
    (hcnt : (if cnt ≠ 0 then cnt else 256) = cs.length) :
    Palette.parse (0x4e :: 0x49 :: 0x50 :: 0x30 :: cnt :: (if ext then 1 else 0) ::
        ((cs.map (nipEntryBytes ext)).flatten ++ [t])) g =
      Except.ok ⟨cs.map (nipDecode ext), t⟩ := by
  have h4 := read4_cons 0x4e 0x49 0x50 0x30
    (cnt :: (if ext then 1 else 0) :: ((cs.map (nipEntryBytes ext)).flatten ++ [t])) g
  norm_num at h4
  have hd4 : (0x4e :: 0x49 :: 0x50 :: 0x30 :: cnt :: (if ext then 1 else 0) ::
      ((cs.map (nipEntryBytes ext)).flatten ++ [t])).drop 4 =
      cnt :: (if ext then 1 else 0) :: ((cs.map (nipEntryBytes ext)).flatten ++ [t]) := rfl
  obtain ⟨hg4, hd5⟩ := drop_cons_get? _ 4 _ _ hd4
  obtain ⟨hg5, hd6⟩ := drop_cons_get? _ 5 _ _ hd5
  have hb4 := readByteFresh_at _ 4 0 cnt g hg4
  have hb5 := readByteFresh_at _ 5 0 (if ext then 1 else 0) g hg5
  have hre := readEntries_exact ext g cs _ [t] 6 0 hd6
  have hd7 := drop_append_shift ((cs.map (nipEntryBytes ext)).flatten) _ [t] 6 hd6
  obtain ⟨hg7, _⟩ := drop_cons_get? _ (6 + ((cs.map (nipEntryBytes ext)).flatten).length) t [] hd7
  have hb7 := readByteInto_at _ (6 + ((cs.map (nipEntryBytes ext)).flatten).length) 0 t 0xe3 g hg7
  conv_lhs => rw [Palette.parse]
  rw [h4]
  show parseNip ⟨0x4e :: 0x49 :: 0x50 :: 0x30 :: cnt :: (if ext then 1 else 0) ::
      ((cs.map (nipEntryBytes ext)).flatten ++ [t]), 4, false, false, g, 0⟩ =
    Except.ok ⟨cs.map (nipDecode ext), t⟩
  rw [parseNip]
  simp only [hb4, hb5, hcnt, hre, hb7]

theorem parse_write (p : Palette) (ext : Bool) (g : Nat → Nat)
    (h1 : 1 ≤ p.numColours) (h2 : p.numColours ≤ 256) :
    Palette.parse (p.write ext) g =
      Except.ok ⟨p.m_colours.map (nipDecode ext), p.m_transparentColour⟩ := by
  have hdata : p.write ext =
      0x4e :: 0x49 :: 0x50 :: 0x30 :: (p.m_colours.length % 256) ::
        (if ext then 1 else 0) ::
        ((p.m_colours.map (nipEntryBytes ext)).flatten ++ [p.m_transparentColour]) := by
    simp [Palette.write]
  have hact : (if (p.m_colours.length % 256) ≠ 0 then (p.m_colours.length % 256) else 256) =
      p.m_colours.length := by
    have h1' : 1 ≤ p.m_colours.length := h1
    have h2' : p.m_colours.length ≤ 256 := h2
    rcases Nat.lt_or_ge p.m_colours.length 256 with hlt | hge
    · rw [Nat.mod_eq_of_lt hlt]
      have hne : p.m_colours.length ≠ 0 := by omega
      simp [hne]
    · have h256 : p.m_colours.length = 256 := by omega
      rw [h256]
      norm_num
  rw [hdata, parse_nip g ext p.m_colours (p.m_colours.length % 256) p.m_transparentColour hact]

theorem nipDecode_true_eq : ∀ r g b : Fin 8,
    nipDecode true ⟨r.val, g.val, b.val⟩ = ⟨r.val, g.val, b.val⟩ := by decide

theorem nipDecode_false_eq : ∀ r g b : Fin 8,
    nipDecode false ⟨r.val, g.val, b.val⟩ =
      ⟨r.val, g.val,
       ((nipP1 ⟨r.val, g.val, b.val⟩ &&& 0x03) <<< 1) |||
         (((nipP1 ⟨r.val, g.val, b.val⟩ &&& 2) >>> 1) ||| (nipP1 ⟨r.val, g.val, b.val⟩ &&& 1))⟩ := by
  decide

/-- Claim C4: for every palette whose entries have red, green and blue in
0..7 (and, per the data-model invariant, 1 to 256 entries): serializing in
standard mode then parsing reproduces every entry's red and green exactly
and yields blue equal to the documented derived-bit reconstruction (the
low blue bit recomputed as `((p1 & 2) >> 1) | (p1 & 1)` from the stored
byte `p1`); serializing in extended (9-bit) mode then parsing reproduces
the palette exactly, including blue. -/
theorem palette_roundtrip (p : Palette) (g : Nat → Nat)
    (h1 : 1 ≤ p.numColours) (h2 : p.numColours ≤ 256)
    (hc : ∀ c ∈ p.m_colours, c.m_red < 8 ∧ c.m_green < 8 ∧ c.m_blue < 8) :
    Palette.parse (p.write false) g =
      Except.ok ⟨p.m_colours.map (fun c =>
        ⟨c.m_red, c.m_green,
         ((nipP1 c &&& 0x03) <<< 1) ||| (((nipP1 c &&& 2) >>> 1) ||| (nipP1 c &&& 1))⟩),
        p.m_transparentColour⟩ ∧
    Palette.parse (p.write true) g = Except.ok p := by
  constructor
  · rw [parse_write p false g h1 h2]
    have hmap : ∀ c ∈ p.m_colours, nipDecode false c =
        (⟨c.m_red, c.m_green,
          ((nipP1 c &&& 0x03) <<< 1) ||| (((nipP1 c &&& 2) >>> 1) ||| (nipP1 c &&& 1))⟩ : Colour) := by
      intro c hcm
      obtain ⟨hr, hg, hb⟩ := hc c hcm
      have he := nipDecode_false_eq ⟨c.m_red, hr⟩ ⟨c.m_green, hg⟩ ⟨c.m_blue, hb⟩
      cases c
      exact he
    rw [List.map_congr_left hmap]
  · rw [parse_write p true g h1 h2]
    have hmap : ∀ c ∈ p.m_colours, nipDecode true c = c := by
      intro c hcm
      obtain ⟨hr, hg, hb⟩ := hc c hcm
      have he := nipDecode_true_eq ⟨c.m_red, hr⟩ ⟨c.m_green, hg⟩ ⟨c.m_blue, hb⟩
      cases c
      exact he
    rw [List.map_congr_left hmap]
    simp

/-- Claim C5: serializing a 256-entry palette stores the count byte (at
offset 4) as 0, the sentinel meaning 256, and parsing that serialized
stream yields a palette with `numColours = 256`, not 0: the entry count
round-trips losslessly through the 0-sentinel convention. -/
theorem count256_roundtrip (p : Palette) (ext : Bool) (g : Nat → Nat)
    (h : p.numColours = 256) :
    (p.write ext)[4]? = some 0 ∧
    ∃ q : Palette, Palette.parse (p.write ext) g = Except.ok q ∧ q.numColours = 256 := by
  have h1 : 1 ≤ p.numColours := by omega
  have h2 : p.numColours ≤ 256 := by omega
  have hlen : p.m_colours.length = 256 := h
  constructor
  · simp [Palette.write, hlen]
  · exact ⟨_, parse_write p ext g h1 h2, by simp [Palette.numColours, hlen]⟩

/-- Witness for C4 at the 2-entry palette [(1,2,3), (7,6,5)] with
transparency index 9. -/
theorem palette_roundtrip_witness :
    (1 ≤ (Palette.mk [⟨1, 2, 3⟩, ⟨7, 6, 5⟩] 9).numColours ∧
     (Palette.mk [⟨1, 2, 3⟩, ⟨7, 6, 5⟩] 9).numColours ≤ 256 ∧
     ∀ c ∈ (Palette.mk [⟨1, 2, 3⟩, ⟨7, 6, 5⟩] 9).m_colours,
       c.m_red < 8 ∧ c.m_green < 8 ∧ c.m_blue < 8) ∧
    (Palette.parse ((Palette.mk [⟨1, 2, 3⟩, ⟨7, 6, 5⟩] 9).write false) (fun _ => 0) =
       Except.ok ⟨(Palette.mk [⟨1, 2, 3⟩, ⟨7, 6, 5⟩] 9).m_colours.map (fun c =>
         ⟨c.m_red, c.m_green,
          ((nipP1 c &&& 0x03) <<< 1) ||| (((nipP1 c &&& 2) >>> 1) ||| (nipP1 c &&& 1))⟩),
         (Palette.mk [⟨1, 2, 3⟩, ⟨7, 6, 5⟩] 9).m_transparentColour⟩ ∧
     Palette.parse ((Palette.mk [⟨1, 2, 3⟩, ⟨7, 6, 5⟩] 9).write true) (fun _ => 0) =
       Except.ok (Palette.mk [⟨1, 2, 3⟩, ⟨7, 6, 5⟩] 9)) :=
  ⟨⟨by decide, by decide, by decide⟩,
   palette_roundtrip (Palette.mk [⟨1, 2, 3⟩, ⟨7, 6, 5⟩] 9) (fun _ => 0)
     (by decide) (by decide) (by decide)⟩

/-- Witness for C5 at the 256-entry default palette. -/
theorem count256_roundtrip_witness :
    defaultPalette.numColours = 256 ∧
    ((defaultPalette.write false)[4]? = some 0 ∧
     ∃ q : Palette, Palette.parse (defaultPalette.write false) (fun _ => 0) = Except.ok q ∧
       q.numColours = 256) :=
  ⟨by simp [defaultPalette, Palette.numColours],
   count256_roundtrip defaultPalette false (fun _ => 0)
     (by simp [defaultPalette, Palette.numColours])⟩

theorem nearestGo_none (cols : List Colour) (t r g b : Nat) :
    ∀ (n s d x : Nat),
      (∀ i, s ≤ i → i < s + n → i ≠ t → d ≤ distAt cols r g b i) →
      nearestGo cols t r g b (List.range' s n) (d, x) = (d, x) := by
  intro n
  induction n with
  | zero => intro s d x _; rfl
  | succ n ih =>
    intro s d x h
    rw [List.range'_succ]
    simp only [nearestGo]
    by_cases hst : s = t
    · rw [if_pos hst]
      exact ih (s + 1) d x (fun i h1 h2 hit => h i (by omega) (by omega) hit)
    · rw [if_neg hst]
      have hds : d ≤ distAt cols r g b s := h s (by omega) (by omega) hst
      rw [if_neg (by omega : ¬ distAt cols r g b s < d)]
      exact ih (s + 1) d x (fun i h1 h2 hit => h i (by omega) (by omega) hit)

theorem nearestGo_found (cols : List Colour) (t r g b : Nat) :
    ∀ (n s d x i0 : Nat), s ≤ i0 → i0 < s + n → i0 ≠ t → distAt cols r g b i0 < d →
      ∃ R : Nat × Nat, nearestGo cols t r g b (List.range' s n) (d, x) = R ∧
        s ≤ R.2 ∧ R.2 < s + n ∧ R.2 ≠ t ∧ R.1 = distAt cols r g b R.2 ∧ R.1 < d ∧
        (∀ k, s ≤ k → k < s + n → k ≠ t → R.1 ≤ distAt cols r g b k) ∧
        (∀ k, s ≤ k → k < R.2 → k ≠ t → R.1 < distAt cols r g b k) := by
  intro n
  induction n with
  | zero =>
    intro s d x i0 h1 h2 _ _
    exact absurd h2 (by omega)
  | succ n ih =>
    intro s d x i0 hsi hin hit hd
    rw [List.range'_succ]
    simp only [nearestGo]
    by_cases hst : s = t
    · rw [if_pos hst]
      have hi1 : s + 1 ≤ i0 := by omega
      obtain ⟨R, hR, a1, a2, a3, a4, a5, a6, a7⟩ := ih (s + 1) d x i0 hi1 (by omega) hit hd
      refine ⟨R, hR, by omega, by omega, a3, a4, a5, ?_, ?_⟩
      · intro k hk1 hk2 hk3
        rcases Nat.eq_or_lt_of_le hk1 with he | hl
        · exact absurd (by omega : k = t) hk3
        · exact a6 k (by omega) (by omega) hk3
      · intro k hk1 hk2 hk3
        rcases Nat.eq_or_lt_of_le hk1 with he | hl
        · exact absurd (by omega : k = t) hk3
        · exact a7 k (by omega) hk2 hk3
    · rw [if_neg hst]
      by_cases hlt : distAt cols r g b s < d
      · rw [if_pos hlt]
        by_cases hex : ∃ j, s + 1 ≤ j ∧ j < s + 1 + n ∧ j ≠ t ∧
            distAt cols r g b j < distAt cols r g b s
        · obtain ⟨j, hj1, hj2, hj3, hj4⟩ := hex
          obtain ⟨R, hR, a1, a2, a3, a4, a5, a6, a7⟩ :=
            ih (s + 1) (distAt cols r g b s) s j hj1 (by omega) hj3 hj4
          refine ⟨R, hR, by omega, by omega, a3, a4, by omega, ?_, ?_⟩
          · intro k hk1 hk2 hk3
            rcases Nat.eq_or_lt_of_le hk1 with he | hl
            · rw [← he]
              omega
            · exact a6 k (by omega) (by omega) hk3
          · intro k hk1 hk2 hk3
            rcases Nat.eq_or_lt_of_le hk1 with he | hl
            · rw [← he]
              exact a5
            · exact a7 k (by omega) hk2 hk3
        · push_neg at hex
          have hnone := nearestGo_none cols t r g b n (s + 1) (distAt cols r g b s) s
            (fun i h1 h2 hit' => hex i h1 h2 hit')
          refine ⟨(distAt cols r g b s, s), hnone, by omega, by omega, hst, rfl, hlt, ?_, ?_⟩
          · intro k hk1 hk2 hk3
            rcases Nat.eq_or_lt_of_le hk1 with he | hl
            · rw [← he]
            · exact hex k (by omega) (by omega) hk3
          · intro k hk1 hk2 hk3
            exact absurd hk2 (by omega)
      · rw [if_neg hlt]
        have hi1 : s + 1 ≤ i0 := by
          rcases Nat.eq_or_lt_of_le hsi with he | hl
          · exfalso
            apply hlt
            rw [he]
            exact hd
          · omega
        obtain ⟨R, hR, a1, a2, a3, a4, a5, a6, a7⟩ := ih (s + 1) d x i0 hi1 (by omega) hit hd
        refine ⟨R, hR, by omega, by omega, a3, a4, a5, ?_, ?_⟩
        · intro k hk1 hk2 hk3
          rcases Nat.eq_or_lt_of_le hk1 with he | hl
          · rw [← he]
            omega
          · exact a6 k (by omega) (by omega) hk3
        · intro k hk1 hk2 hk3
          rcases Nat.eq_or_lt_of_le hk1 with he | hl
          · rw [← he]
            omega
          · exact a7 k (by omega) hk2 hk3

theorem kColour_3bit_getD_le (i : Nat) : kColour_3bit.getD i 0 ≤ 255 := by
  rcases Nat.lt_or_ge i 8 with h | h
  · interval_cases i <;> decide
  · rw [List.getD_eq_default]
    · exact Nat.zero_le 255
    · simpa [kColour_3bit] using h

theorem distAt_lt_sentinel (cols : List Colour) (r g b j : Nat)
    (hr : r ≤ 255) (hg : g ≤ 255) (hb : b ≤ 255) :
    distAt cols r g b j < 16777216 := by
  unfold distAt colourDist
  have t1 := kColour_3bit_getD_le (cols.getD j default).m_red
  have t2 := kColour_3bit_getD_le (cols.getD j default).m_green
  have t3 := kColour_3bit_getD_le (cols.getD j default).m_blue
  have e1 : ((kColour_3bit.getD (cols.getD j default).m_red 0 : Int) - (r : Int)).natAbs ≤ 255 := by
    omega
  have e2 : ((kColour_3bit.getD (cols.getD j default).m_green 0 : Int) - (g : Int)).natAbs ≤ 255 := by
    omega
  have e3 : ((kColour_3bit.getD (cols.getD j default).m_blue 0 : Int) - (b : Int)).natAbs ≤ 255 := by
    omega
  have s1 : ((kColour_3bit.getD (cols.getD j default).m_red 0 : Int) - (r : Int)).natAbs ^ 2 ≤
      65025 := le_trans (Nat.pow_le_pow_left e1 2) (by norm_num)
  have s2 : ((kColour_3bit.getD (cols.getD j default).m_green 0 : Int) - (g : Int)).natAbs ^ 2 ≤
      65025 := le_trans (Nat.pow_le_pow_left e2 2) (by norm_num)
  have s3 : ((kColour_3bit.getD (cols.getD j default).m_blue 0 : Int) - (b : Int)).natAbs ^ 2 ≤
      65025 := le_trans (Nat.pow_le_pow_left e3 2) (by norm_num)
  omega

/-- Claim C1: for an opaque pixel (alpha byte 255) and a palette holding
at least one entry whose index `i0` differs from the transparent index
(entries' channels in 0..7, matching the C++ indexing into the 3-bit
table), the classified index is a valid palette index different from the
transparent index, its squared Euclidean distance — palette channels
expanded through `kColour_3bit`, compared against the raw unquantized
r,g,b of the pixel — is minimal among all non-transparent entries, and
every smaller candidate index is strictly farther, so equal-distance ties
resolve to the lowest index; the transparent entry is skipped even when
it would be nearest. -/
theorem opaque_pixel_nearest (p : Palette) (v x0 : Nat)
    (ha : (v &&& 0xff000000) >>> 24 = 255)
    (hch : ∀ c ∈ p.m_colours, c.m_red < 8 ∧ c.m_green < 8 ∧ c.m_blue < 8)
    (i0 : Nat) (hi0 : i0 < p.numColours) (hit : i0 ≠ p.getTransColour) :
    classifyPixel p v x0 < p.numColours ∧
    classifyPixel p v x0 ≠ p.getTransColour ∧
    (∀ k, k < p.numColours → k ≠ p.getTransColour →
      distAt p.m_colours (v &&& 0xff) ((v &&& 0xff00) >>> 8) ((v &&& 0xff0000) >>> 16)
        (classifyPixel p v x0) ≤
      distAt p.m_colours (v &&& 0xff) ((v &&& 0xff00) >>> 8) ((v &&& 0xff0000) >>> 16) k) ∧
    (∀ k, k < classifyPixel p v x0 → k ≠ p.getTransColour →
      distAt p.m_colours (v &&& 0xff) ((v &&& 0xff00) >>> 8) ((v &&& 0xff0000) >>> 16)
        (classifyPixel p v x0) <
      distAt p.m_colours (v &&& 0xff) ((v &&& 0xff00) >>> 8) ((v &&& 0xff0000) >>> 16) k) := by
  have hcl : classifyPixel p v x0 =
      nearestIndex p.m_colours p.getTransColour (v &&& 0xff) ((v &&& 0xff00) >>> 8)
        ((v &&& 0xff0000) >>> 16) x0 := by
    simp only [classifyPixel]
    rw [if_neg (by simp [ha])]
  have hrb : v &&& 0xff ≤ 255 := Nat.and_le_right
  have hgb : (v &&& 0xff00) >>> 8 ≤ 255 := by
    have h1 : v &&& 0xff00 ≤ 0xff00 := Nat.and_le_right
    have h2 : (v &&& 0xff00) >>> 8 ≤ (0xff00 : Nat) >>> 8 := by
      simp only [Nat.shiftRight_eq_div_pow]
      exact Nat.div_le_div_right h1
    have h3 : (0xff00 : Nat) >>> 8 = 255 := by decide
    omega
  have hbb : (v &&& 0xff0000) >>> 16 ≤ 255 := by
    have h1 : v &&& 0xff0000 ≤ 0xff0000 := Nat.and_le_right
    have h2 : (v &&& 0xff0000) >>> 16 ≤ (0xff0000 : Nat) >>> 16 := by
      simp only [Nat.shiftRight_eq_div_pow]
      exact Nat.div_le_div_right h1
    have h3 : (0xff0000 : Nat) >>> 16 = 255 := by decide
    omega
  have hi0' : i0 < p.m_colours.length := hi0
  obtain ⟨R, hR, a1, a2, a3, a4, a5, a6, a7⟩ :=
    nearestGo_found p.m_colours p.getTransColour (v &&& 0xff) ((v &&& 0xff00) >>> 8)
      ((v &&& 0xff0000) >>> 16) p.m_colours.length 0 16777216 x0 i0 (Nat.zero_le i0)
      (by omega) hit
      (distAt_lt_sentinel p.m_colours _ _ _ i0 hrb hgb hbb)
  have hni : nearestIndex p.m_colours p.getTransColour (v &&& 0xff) ((v &&& 0xff00) >>> 8)
      ((v &&& 0xff0000) >>> 16) x0 = R.2 := by
    unfold nearestIndex
    rw [List.range_eq_range', hR]
  rw [hcl, hni]
  have hnum : p.numColours = p.m_colours.length := rfl
  refine ⟨by omega, a3, ?_, ?_⟩
  · intro k hk1 hk2
    have := a6 k (Nat.zero_le k) (by omega) hk2
    omega
  · intro k hk1 hk2
    have := a7 k (Nat.zero_le k) hk1 hk2
    omega

/-- Witness for C1: palette of three identical black entries, transparent
index 0, opaque black pixel: entry 0 is skipped despite matching exactly,
and the tie between entries 1 and 2 resolves to index 1. -/
theorem opaque_pixel_nearest_witness :
    ((0xff000000 &&& 0xff000000) >>> 24 = 255 ∧
     (∀ c ∈ (Palette.mk [⟨0, 0, 0⟩, ⟨0, 0, 0⟩, ⟨0, 0, 0⟩] 0).m_colours,
       c.m_red < 8 ∧ c.m_green < 8 ∧ c.m_blue < 8) ∧
     1 < (Palette.mk [⟨0, 0, 0⟩, ⟨0, 0, 0⟩, ⟨0, 0, 0⟩] 0).numColours ∧
     (1 : Nat) ≠ (Palette.mk [⟨0, 0, 0⟩, ⟨0, 0, 0⟩, ⟨0, 0, 0⟩] 0).getTransColour) ∧
    (classifyPixel (Palette.mk [⟨0, 0, 0⟩, ⟨0, 0, 0⟩, ⟨0, 0, 0⟩] 0) 0xff000000 77 <
       (Palette.mk [⟨0, 0, 0⟩, ⟨0, 0, 0⟩, ⟨0, 0, 0⟩] 0).numColours ∧
     classifyPixel (Palette.mk [⟨0, 0, 0⟩, ⟨0, 0, 0⟩, ⟨0, 0, 0⟩] 0) 0xff000000 77 ≠
       (Palette.mk [⟨0, 0, 0⟩, ⟨0, 0, 0⟩, ⟨0, 0, 0⟩] 0).getTransColour ∧
     (∀ k, k < (Palette.mk [⟨0, 0, 0⟩, ⟨0, 0, 0⟩, ⟨0, 0, 0⟩] 0).numColours →
       k ≠ (Palette.mk [⟨0, 0, 0⟩, ⟨0, 0, 0⟩, ⟨0, 0, 0⟩] 0).getTransColour →
       distAt (Palette.mk [⟨0, 0, 0⟩, ⟨0, 0, 0⟩, ⟨0, 0, 0⟩] 0).m_colours
         (0xff000000 &&& 0xff) ((0xff000000 &&& 0xff00) >>> 8) ((0xff000000 &&& 0xff0000) >>> 16)
         (classifyPixel (Palette.mk [⟨0, 0, 0⟩, ⟨0, 0, 0⟩, ⟨0, 0, 0⟩] 0) 0xff000000 77) ≤
       distAt (Palette.mk [⟨0, 0, 0⟩, ⟨0, 0, 0⟩, ⟨0, 0, 0⟩] 0).m_colours
         (0xff000000 &&& 0xff) ((0xff000000 &&& 0xff00) >>> 8) ((0xff000000 &&& 0xff0000) >>> 16)
         k) ∧
     (∀ k, k < classifyPixel (Palette.mk [⟨0, 0, 0⟩, ⟨0, 0, 0⟩, ⟨0, 0, 0⟩] 0) 0xff000000 77 →
       k ≠ (Palette.mk [⟨0, 0, 0⟩, ⟨0, 0, 0⟩, ⟨0, 0, 0⟩] 0).getTransColour →
       distAt (Palette.mk [⟨0, 0, 0⟩, ⟨0, 0, 0⟩, ⟨0, 0, 0⟩] 0).m_colours
         (0xff000000 &&& 0xff) ((0xff000000 &&& 0xff00) >>> 8) ((0xff000000 &&& 0xff0000) >>> 16)
         (classifyPixel (Palette.mk [⟨0, 0, 0⟩, ⟨0, 0, 0⟩, ⟨0, 0, 0⟩] 0) 0xff000000 77) <
       distAt (Palette.mk [⟨0, 0, 0⟩, ⟨0, 0, 0⟩, ⟨0, 0, 0⟩] 0).m_colours
         (0xff000000 &&& 0xff) ((0xff000000 &&& 0xff00) >>> 8) ((0xff000000 &&& 0xff0000) >>> 16)
         k)) :=
  ⟨⟨by decide, by decide, by decide, by decide⟩,
   opaque_pixel_nearest (Palette.mk [⟨0, 0, 0⟩, ⟨0, 0, 0⟩, ⟨0, 0, 0⟩] 0) 0xff000000 77
     (by decide) (by decide) 1 (by decide) (by decide)⟩
